import Mathlib

/-!
Verification of the DVH (dose-volume histogram) core of this repository,
a shallow embedding of `src/dvh.rs` and `src/error.rs`.

`f64` values are modelled as rationals (`ℚ`): every comparison and the
interpolation primitive are translated literally, and the rationals carry
exactly the "real, non-NaN" reading of the data that the specification's
invariants describe. Mutating methods take the receiver and return the
updated receiver; `&self` methods are pure functions of the receiver.
-/

/-- Dose unit tag, mirroring `DoseType` in `src/dvh.rs`. -/
inductive DoseType where
  | Gy
  | CGy
deriving DecidableEq, Repr

/-- Volume unit tag, mirroring `VolumeType` in `src/dvh.rs`. -/
inductive VolumeType where
  | Percent
  | Cc
deriving DecidableEq, Repr

/-- Error taxonomy, mirroring `Error` in `src/error.rs`. -/
inductive Error where
  | DvhUnsorted
  | DvhNoData
  | DvhInsufficientData
  | DvhDxLogic
  | DvhVxLogic
  | NegativeVolume
  | NegativeDose
  | PercentVolumeOutOfRange
  | MismatchedLengthDoseVolumeData
deriving DecidableEq, Repr

instance {ε α : Type _} [DecidableEq ε] [DecidableEq α] : DecidableEq (Except ε α) :=
  fun x y =>
    match x, y with
    | Except.ok a, Except.ok b => decidable_of_iff (a = b) (by simp)
    | Except.ok _, Except.error _ => isFalse (by simp)
    | Except.error _, Except.ok _ => isFalse (by simp)
    | Except.error e, Except.error f => decidable_of_iff (e = f) (by simp)

/-- Mirrors `linear_interpolation` in `src/dvh.rs`: interpolate at `x`
between `(x0, y0)` and `(x1, y1)`; if `x1 == x0`, return `y0`. -/
def linear_interpolation (x x0 x1 y0 y1 : ℚ) : ℚ :=
  if x1 = x0 then y0
  else (x - x0) * (y1 - y0) / (x1 - x0) + y0

/-- Mirrors the struct `Dvh` in `src/dvh.rs`: parallel dose/volume vectors,
unit tags, and the manually maintained sortedness flag. -/
structure Dvh where
  dose_type : DoseType
  volume_type : VolumeType
  d : List ℚ
  v : List ℚ
  is_sorted : Bool
deriving DecidableEq, Repr

namespace Dvh

/-- Mirrors `Dvh::new`: empty data, given unit tags, `is_sorted = true`. -/
def new (dose_type : DoseType) (volume_type : VolumeType) : Dvh :=
  { dose_type := dose_type
    volume_type := volume_type
    d := []
    v := []
    is_sorted := true }

/-- Mirrors `Dvh::len`. -/
def len (h : Dvh) : Nat :=
  h.d.length

/-- Mirrors `Dvh::is_empty`. -/
def is_empty (h : Dvh) : Bool :=
  h.d.isEmpty

/-- Mirrors `Dvh::add`: validate `d`, `v` and the percent bound, then push
the pair and clear the sortedness flag. Returns the Rust `bool` together
with the updated receiver. -/
def add (h : Dvh) (d v : ℚ) : Bool × Dvh :=
  if d < 0 then (false, h)
  else if v < 0 then (false, h)
  else if h.volume_type = VolumeType.Percent ∧ 1 < v then (false, h)
  else
    (true,
      { h with
        is_sorted := false
        d := h.d ++ [d]
        v := h.v ++ [v] })

/-- Mirrors `Dvh::add_slice`: reject on length mismatch, on a negative
dose, or on a negative or percent-out-of-range volume; otherwise extend
both vectors and clear the sortedness flag. -/
def add_slice (h : Dvh) (d v : List ℚ) : Bool × Dvh :=
  if d.length ≠ v.length then (false, h)
  else if d.any (fun x => decide (x < 0)) then (false, h)
  else if v.any (fun x =>
      decide (x < 0) || decide (h.volume_type = VolumeType.Percent ∧ 1 < x)) then
    (false, h)
  else
    (true,
      { h with
        is_sorted := false
        d := h.d ++ d
        v := h.v ++ v })

/-- The permutation of indices computed by `Dvh::sort`. The Rust code sorts
`0..d.len()` with `sort_unstable_by` comparing dose values; the library call
guarantees a permutation ordered by the comparator (which permutation is
chosen for tied doses is unspecified), modelled here by a deterministic
insertion sort of the index list under the same comparator — the very
algorithm Rust's unstable sort applies to short slices. -/
def sortIndices (h : Dvh) : List Nat :=
  List.insertionSort (fun i j => h.d.getD i 0 ≤ h.d.getD j 0) (List.range h.d.length)

/-- Mirrors `Dvh::sort`: no-op when the flag is set, otherwise apply the
index permutation of `sortIndices` to both vectors and set the flag. -/
def sort (h : Dvh) : Dvh :=
  if h.is_sorted then h
  else
    { h with
      d := h.sortIndices.map fun i => h.d.getD i 0
      v := h.sortIndices.map fun i => h.v.getD i 0
      is_sorted := true }

/-- The `for` loop of `Dvh::dx` with its trailing clamp: scan the
`(volume, dose)` pairs in reverse order carrying the previous pair
`(x0, y0)`; on a bracket `x0 ≤ volume ≤ x1` interpolate; when the scan is
exhausted, return `y0` if `volume > x0`, else the defensive logic error. -/
def dxScan (volume x0 y0 : ℚ) : List (ℚ × ℚ) → Except Error ℚ
  | [] =>
    if x0 < volume then Except.ok y0
    else Except.error Error.DvhDxLogic
  | (x1, y1) :: rest =>
    if x0 ≤ volume ∧ volume ≤ x1 then
      Except.ok (linear_interpolation volume x0 x1 y0 y1)
    else dxScan volume x1 y1 rest

/-- Mirrors `Dvh::dx`: the four precondition gates, the clamp to the
highest-dose sample, then the reverse bracket scan of `dxScan`. -/
def dx (h : Dvh) (volume : ℚ) : Except Error ℚ :=
  if volume < 0 then Except.error Error.NegativeVolume
  else if h.is_empty then Except.error Error.DvhNoData
  else if h.len < 2 then Except.error Error.DvhInsufficientData
  else if ¬h.is_sorted then Except.error Error.DvhUnsorted
  else
    let n := h.v.length
    let x0 := h.v.getD (n - 1) 0
    let y0 := h.d.getD (n - 1) 0
    if volume ≤ x0 then Except.ok y0
    else dxScan volume x0 y0 (h.v.reverse.zip h.d.reverse)

/-- The `for` loop of `Dvh::vx` with its trailing clamp: scan the
`(dose, volume)` pairs in order carrying the previous pair `(x0, y0)`; on a
bracket interpolate; when the scan is exhausted, return the last sample's
volume `vLast` if `dose` exceeds the last sample's dose `dLast`, else the
defensive logic error. -/
def vxScan (dose dLast vLast x0 y0 : ℚ) : List (ℚ × ℚ) → Except Error ℚ
  | [] =>
    if dLast < dose then Except.ok vLast
    else Except.error Error.DvhVxLogic
  | (x1, y1) :: rest =>
    if x0 ≤ dose ∧ dose ≤ x1 then
      Except.ok (linear_interpolation dose x0 x1 y0 y1)
    else vxScan dose dLast vLast x1 y1 rest

/-- Mirrors `Dvh::vx`: the four precondition gates, the clamp to the
lowest-dose sample, then the forward bracket scan of `vxScan`. -/
def vx (h : Dvh) (dose : ℚ) : Except Error ℚ :=
  if dose < 0 then Except.error Error.NegativeDose
  else if h.is_empty then Except.error Error.DvhNoData
  else if h.len < 2 then Except.error Error.DvhInsufficientData
  else if ¬h.is_sorted then Except.error Error.DvhUnsorted
  else
    let n := h.d.length
    let x0 := h.d.getD 0 0
    let y0 := h.v.getD 0 0
    if dose ≤ x0 then Except.ok y0
    else vxScan dose (h.d.getD (n - 1) 0) (h.v.getD (n - 1) 0) x0 y0 (h.d.zip h.v)

/-- A call to `Dvh::dx` with its receiver state made explicit: `dx` takes
`&self`, so the call returns the query result and leaves the receiver as it
was; the body assigns no field of `self`. -/
def dxCall (h : Dvh) (volume : ℚ) : Except Error ℚ × Dvh :=
  (h.dx volume, h)

/-- A call to `Dvh::vx` with its receiver state made explicit, as in
`dxCall`. -/
def vxCall (h : Dvh) (dose : ℚ) : Except Error ℚ × Dvh :=
  (h.vx dose, h)

/-- The data invariants of the specification (§3): equal lengths,
non-negative doses and volumes, and the percent bound on volumes. -/
def Inv (h : Dvh) : Prop :=
  h.d.length = h.v.length ∧
  (∀ x ∈ h.d, 0 ≤ x) ∧
  (∀ x ∈ h.v, 0 ≤ x) ∧
  (h.volume_type = VolumeType.Percent → ∀ x ∈ h.v, 0 ≤ x ∧ x ≤ 1)

end Dvh

/-- Reading every position of a list through `getD` in index order
reproduces the list. -/
theorem map_getD_range (l : List ℚ) :
    (List.range l.length).map (fun i => l.getD i 0) = l := by
  apply List.ext_getElem
  · simp
  · intro n h1 h2
    rw [List.getElem_map, List.getElem_range]
    exact List.getD_eq_getElem l 0 h2

/-- Reading every position of two equal-length lists through `getD` in
index order reproduces their zip. -/
theorem map_pair_getD_range (d v : List ℚ) (hlen : d.length = v.length) :
    (List.range d.length).map (fun i => (d.getD i 0, v.getD i 0)) = d.zip v := by
  apply List.ext_getElem
  · simp [hlen]
  · intro n h1 h2
    have hn : n < d.length := by simpa using h1
    have hv : n < v.length := hlen ▸ hn
    rw [List.getElem_map, List.getElem_range, List.getElem_zip,
      List.getD_eq_getElem d 0 hn, List.getD_eq_getElem v 0 hv]

/-- The index permutation of `Dvh::sort` is a permutation of `0..d.len()`. -/
theorem sortIndices_perm (h : Dvh) : h.sortIndices.Perm (List.range h.d.length) :=
  List.perm_insertionSort _ _

/-- The index permutation of `Dvh::sort` is ordered by the dose comparator. -/
theorem sortIndices_sorted (h : Dvh) :
    List.Sorted (fun i j => h.d.getD i 0 ≤ h.d.getD j 0) h.sortIndices := by
  haveI : IsTotal Nat (fun i j => h.d.getD i 0 ≤ h.d.getD j 0) :=
    ⟨fun _ _ => le_total _ _⟩
  haveI : IsTrans Nat (fun i j => h.d.getD i 0 ≤ h.d.getD j 0) :=
    ⟨fun _ _ _ hab hbc => le_trans hab hbc⟩
  exact List.sorted_insertionSort _ _

/-- C1: for every histogram (with aligned data and a coherent sortedness
flag), after `sort()` the dose sequence is non-decreasing, the multiset of
index-aligned (dose, volume) pairs is exactly the multiset held before the
call, and the sorted flag is true. -/
theorem sort_correct (h : Dvh) (hlen : h.d.length = h.v.length)
    (hcoh : h.is_sorted = true → h.d.Sorted (· ≤ ·)) :
    h.sort.d.Sorted (· ≤ ·) ∧
    (↑(h.sort.d.zip h.sort.v) : Multiset (ℚ × ℚ)) = ↑(h.d.zip h.v) ∧
    h.sort.is_sorted = true := by
  by_cases hs : h.is_sorted = true
  · have heq : h.sort = h := by simp [Dvh.sort, hs]
    rw [heq]
    exact ⟨hcoh hs, rfl, hs⟩
  · have hs' : h.is_sorted = false := by simpa using hs
    have hd : h.sort.d = h.sortIndices.map (fun i => h.d.getD i 0) := by
      simp [Dvh.sort, hs']
    have hv : h.sort.v = h.sortIndices.map (fun i => h.v.getD i 0) := by
      simp [Dvh.sort, hs']
    have hflag : h.sort.is_sorted = true := by simp [Dvh.sort, hs']
    refine ⟨?_, ?_, hflag⟩
    · rw [hd]
      exact List.Pairwise.map _ (fun a b hab => hab) (sortIndices_sorted h)
    · rw [hd, hv, List.zip_map', Multiset.coe_eq_coe]
      have hperm := (sortIndices_perm h).map fun i => (h.d.getD i 0, h.v.getD i 0)
      rw [map_pair_getD_range h.d h.v hlen] at hperm
      exact hperm

/-- C1 witness: a concrete unsorted two-point histogram. -/
theorem sort_correct_witness :
    (⟨DoseType.Gy, VolumeType.Percent, [10, 0], [8/10, 1], false⟩ : Dvh).sort.d.Sorted
        (· ≤ ·) ∧
    (↑((⟨DoseType.Gy, VolumeType.Percent, [10, 0], [8/10, 1], false⟩ : Dvh).sort.d.zip
        (⟨DoseType.Gy, VolumeType.Percent, [10, 0], [8/10, 1], false⟩ : Dvh).sort.v) :
      Multiset (ℚ × ℚ)) =
      ↑((⟨DoseType.Gy, VolumeType.Percent, [10, 0], [8/10, 1], false⟩ : Dvh).d.zip
        (⟨DoseType.Gy, VolumeType.Percent, [10, 0], [8/10, 1], false⟩ : Dvh).v) ∧
    (⟨DoseType.Gy, VolumeType.Percent, [10, 0], [8/10, 1], false⟩ : Dvh).sort.is_sorted =
      true :=
  sort_correct _ rfl (by simp)

/-- C2: for the two-point percent histogram built by `add(0, 1)` and
`add(10, 0.8)` then `sort()`, `vx(5)` is `Ok 0.9` and `dx(0.9)` is `Ok 5`:
the midpoint round-trip of the specification. -/
theorem dx_vx_midpoint_round_trip :
    ((((Dvh.new DoseType.Gy VolumeType.Percent).add 0 1).2.add 10 (8/10)).2.sort.vx 5
        = Except.ok (9/10)) ∧
    ((((Dvh.new DoseType.Gy VolumeType.Percent).add 0 1).2.add 10 (8/10)).2.sort.dx (9/10)
        = Except.ok 5) := by
  constructor <;>
    norm_num [Dvh.new, Dvh.add, Dvh.sort, Dvh.sortIndices, List.insertionSort,
      List.orderedInsert, List.range_succ, Dvh.vx, Dvh.dx, Dvh.vxScan, Dvh.dxScan,
      Dvh.is_empty, Dvh.len, linear_interpolation]

/-- C3: the precondition gates of `dx` and `vx` fire in order, each with the
specific named error: negative input first, then empty data, then a single
point, then the unsorted flag. -/
theorem query_gating (h : Dvh) (volume dose : ℚ) :
    (volume < 0 → h.dx volume = Except.error Error.NegativeVolume) ∧
    (0 ≤ volume → h.len = 0 → h.dx volume = Except.error Error.DvhNoData) ∧
    (0 ≤ volume → h.len = 1 → h.dx volume = Except.error Error.DvhInsufficientData) ∧
    (0 ≤ volume → 2 ≤ h.len → h.is_sorted = false →
      h.dx volume = Except.error Error.DvhUnsorted) ∧
    (dose < 0 → h.vx dose = Except.error Error.NegativeDose) ∧
    (0 ≤ dose → h.len = 0 → h.vx dose = Except.error Error.DvhNoData) ∧
    (0 ≤ dose → h.len = 1 → h.vx dose = Except.error Error.DvhInsufficientData) ∧
    (0 ≤ dose → 2 ≤ h.len → h.is_sorted = false →
      h.vx dose = Except.error Error.DvhUnsorted) := by
  refine ⟨?_, ?_, ?_, ?_, ?_, ?_, ?_, ?_⟩
  · intro hneg
    simp [Dvh.dx, hneg]
  · intro h0 hlen
    have hd : h.d = [] := List.length_eq_zero.mp hlen
    simp [Dvh.dx, Dvh.is_empty, hd, not_lt.mpr h0]
  · intro h0 hlen
    have hd1 : h.d.length = 1 := hlen
    obtain ⟨a, ha⟩ := List.length_eq_one.mp hd1
    norm_num [Dvh.dx, Dvh.is_empty, Dvh.len, ha, not_lt.mpr h0]
  · intro h0 h2n hsf
    have hne : h.d ≠ [] := by
      intro he
      rw [Dvh.len, he] at h2n
      simp at h2n
    have hlt : ¬h.d.length < 2 := not_lt.mpr h2n
    simp [Dvh.dx, Dvh.is_empty, Dvh.len, not_lt.mpr h0, hsf, List.isEmpty_iff, hne, hlt]
  · intro hneg
    simp [Dvh.vx, hneg]
  · intro h0 hlen
    have hd : h.d = [] := List.length_eq_zero.mp hlen
    simp [Dvh.vx, Dvh.is_empty, hd, not_lt.mpr h0]
  · intro h0 hlen
    have hd1 : h.d.length = 1 := hlen
    obtain ⟨a, ha⟩ := List.length_eq_one.mp hd1
    norm_num [Dvh.vx, Dvh.is_empty, Dvh.len, ha, not_lt.mpr h0]
  · intro h0 h2n hsf
    have hne : h.d ≠ [] := by
      intro he
      rw [Dvh.len, he] at h2n
      simp at h2n
    have hlt : ¬h.d.length < 2 := not_lt.mpr h2n
    simp [Dvh.vx, Dvh.is_empty, Dvh.len, not_lt.mpr h0, hsf, List.isEmpty_iff, hne, hlt]

/-- C3 witness: each gate observed on a concrete histogram and input. -/
theorem query_gating_witness :
    ((⟨DoseType.Gy, VolumeType.Percent, [], [], true⟩ : Dvh).dx (-1)
        = Except.error Error.NegativeVolume) ∧
    ((⟨DoseType.Gy, VolumeType.Percent, [], [], true⟩ : Dvh).dx 0
        = Except.error Error.DvhNoData) ∧
    ((⟨DoseType.Gy, VolumeType.Percent, [3], [1], true⟩ : Dvh).dx 0
        = Except.error Error.DvhInsufficientData) ∧
    ((⟨DoseType.Gy, VolumeType.Percent, [0, 10], [1, 8/10], false⟩ : Dvh).dx 0
        = Except.error Error.DvhUnsorted) ∧
    ((⟨DoseType.Gy, VolumeType.Percent, [], [], true⟩ : Dvh).vx (-1)
        = Except.error Error.NegativeDose) ∧
    ((⟨DoseType.Gy, VolumeType.Percent, [], [], true⟩ : Dvh).vx 0
        = Except.error Error.DvhNoData) ∧
    ((⟨DoseType.Gy, VolumeType.Percent, [3], [1], true⟩ : Dvh).vx 0
        = Except.error Error.DvhInsufficientData) ∧
    ((⟨DoseType.Gy, VolumeType.Percent, [0, 10], [1, 8/10], false⟩ : Dvh).vx 0
        = Except.error Error.DvhUnsorted) :=
  ⟨(query_gating _ (-1) 0).1 (by norm_num),
   (query_gating _ 0 0).2.1 (by norm_num) rfl,
   (query_gating _ 0 0).2.2.1 (by norm_num) rfl,
   (query_gating _ 0 0).2.2.2.1 (by norm_num) (by norm_num [Dvh.len]) rfl,
   (query_gating _ 0 (-1)).2.2.2.2.1 (by norm_num),
   (query_gating _ 0 0).2.2.2.2.2.1 (by norm_num) rfl,
   (query_gating _ 0 0).2.2.2.2.2.2.1 (by norm_num) rfl,
   (query_gating _ 0 0).2.2.2.2.2.2.2 (by norm_num) (by norm_num [Dvh.len]) rfl⟩

/-- The reverse bracket scan of `dx` always lands in one of its two `ok`
outcomes once the entering value strictly exceeds the carried `x0`. -/
theorem dxScan_isOk (volume : ℚ) :
    ∀ (l : List (ℚ × ℚ)) (x0 y0 : ℚ), x0 < volume →
      ∃ r, Dvh.dxScan volume x0 y0 l = Except.ok r := by
  intro l
  induction l with
  | nil =>
    intro x0 y0 hx
    exact ⟨y0, by simp [Dvh.dxScan, hx]⟩
  | cons p rest ih =>
    intro x0 y0 hx
    obtain ⟨x1, y1⟩ := p
    by_cases hb : x0 ≤ volume ∧ volume ≤ x1
    · exact ⟨linear_interpolation volume x0 x1 y0 y1, by simp [Dvh.dxScan, hb]⟩
    · have hx1 : x1 < volume := by
        rcases not_and_or.mp hb with hc | hc
        · exact absurd (le_of_lt hx) hc
        · exact not_le.mp hc
      obtain ⟨r, hr⟩ := ih x1 y1 hx1
      exact ⟨r, by simpa [Dvh.dxScan, hb] using hr⟩

/-- The forward bracket scan of `vx` always lands in one of its two `ok`
outcomes once the query strictly exceeds the carried `x0`, provided the
last-sample dose handed to the trailing clamp is the one the scan ends on. -/
theorem vxScan_isOk (dose dLast vLast : ℚ) :
    ∀ (l : List (ℚ × ℚ)) (x0 y0 : ℚ), x0 < dose →
      (l.getLastD (x0, y0)).1 = dLast →
      ∃ r, Dvh.vxScan dose dLast vLast x0 y0 l = Except.ok r := by
  intro l
  induction l with
  | nil =>
    intro x0 y0 hx hlast
    have hx0 : x0 = dLast := by simpa [List.getLastD] using hlast
    have hd : dLast < dose := hx0 ▸ hx
    exact ⟨vLast, by simp [Dvh.vxScan, hd]⟩
  | cons p rest ih =>
    intro x0 y0 hx hlast
    obtain ⟨x1, y1⟩ := p
    by_cases hb : x0 ≤ dose ∧ dose ≤ x1
    · exact ⟨linear_interpolation dose x0 x1 y0 y1, by simp [Dvh.vxScan, hb]⟩
    · have hx1 : x1 < dose := by
        rcases not_and_or.mp hb with hc | hc
        · exact absurd (le_of_lt hx) hc
        · exact not_le.mp hc
      have hlast' : (rest.getLastD (x1, y1)).1 = dLast := by
        rw [List.getLastD_cons] at hlast
        exact hlast
      obtain ⟨r, hr⟩ := ih x1 y1 hx1 hlast'
      exact ⟨r, by simpa [Dvh.vxScan, hb] using hr⟩

/-- The last pair of a zip of equal-length non-empty lists projects to the
last element of the first list. -/
theorem getLastD_zip_fst (d v : List ℚ) (hlen : d.length = v.length)
    (h1 : 1 ≤ d.length) (q : ℚ × ℚ) :
    ((d.zip v).getLastD q).1 = d.getD (d.length - 1) 0 := by
  have hzlen : (d.zip v).length = d.length := by simp [hlen]
  have hidx : d.length - 1 < (d.zip v).length := by omega
  have hd : d.length - 1 < d.length := by omega
  rw [List.getLastD_eq_getLast?, List.getLast?_eq_getElem?, hzlen,
    List.getElem?_eq_getElem hidx]
  simp [List.getElem_zip, List.getD_eq_getElem d 0 hd, List.getElem?_eq_getElem hd]

/-- C4: on any histogram that passes the four gates (two or more points,
sorted flag set, non-negative query), the defensive internal-logic branch
of `dx` and of `vx` is unreachable: the two clamp cases bound all rational
inputs. -/
theorem logic_error_unreachable (h : Dvh) (x : ℚ)
    (hlen : h.d.length = h.v.length) (hn : 2 ≤ h.len) (hs : h.is_sorted = true)
    (hx : 0 ≤ x) :
    h.dx x ≠ Except.error Error.DvhDxLogic ∧
    h.vx x ≠ Except.error Error.DvhVxLogic := by
  have hn' : 2 ≤ h.d.length := hn
  have hne : h.d ≠ [] := by
    intro he
    rw [he] at hn'
    simp at hn'
  have hlt : ¬h.d.length < 2 := not_lt.mpr hn
  constructor
  · simp [Dvh.dx, Dvh.is_empty, Dvh.len, not_lt.mpr hx, hs, List.isEmpty_iff, hne, hlt]
    split_ifs with hclamp
    · simp
    · obtain ⟨r, hr⟩ :=
        dxScan_isOk x (h.v.reverse.zip h.d.reverse) _ _ (not_le.mp hclamp)
      rw [hr]
      simp
  · simp [Dvh.vx, Dvh.is_empty, Dvh.len, not_lt.mpr hx, hs, List.isEmpty_iff, hne, hlt]
    simp only [← List.getD_eq_getElem?_getD]
    split_ifs with hclamp
    · simp
    · have hlast : ((h.d.zip h.v).getLastD (h.d.getD 0 0, h.v.getD 0 0)).1 =
          h.d.getD (h.d.length - 1) 0 :=
        getLastD_zip_fst h.d h.v hlen (by omega) _
      obtain ⟨r, hr⟩ :=
        vxScan_isOk x (h.d.getD (h.d.length - 1) 0) (h.v.getD (h.d.length - 1) 0)
          (h.d.zip h.v) (h.d.getD 0 0) (h.v.getD 0 0) (not_le.mp hclamp) hlast
      rw [hr]
      simp

/-- C4 witness: a concrete sorted two-point histogram and the query 0. -/
theorem logic_error_unreachable_witness :
    ((⟨DoseType.Gy, VolumeType.Percent, [0, 10], [1, 8/10], true⟩ : Dvh).dx 0
        ≠ Except.error Error.DvhDxLogic) ∧
    ((⟨DoseType.Gy, VolumeType.Percent, [0, 10], [1, 8/10], true⟩ : Dvh).vx 0
        ≠ Except.error Error.DvhVxLogic) :=
  logic_error_unreachable _ 0 rfl (by norm_num [Dvh.len]) rfl (by norm_num)

/-- C5: `add` rejects a negative dose, a negative volume, or a percent
volume above 1 by returning false with no mutation; otherwise it returns
true, appends the pair at the end of both sequences, and clears the sorted
flag, all other fields unchanged. -/
theorem add_spec (h : Dvh) (d v : ℚ) :
    ((d < 0 ∨ v < 0 ∨ (h.volume_type = VolumeType.Percent ∧ 1 < v)) →
      h.add d v = (false, h)) ∧
    (0 ≤ d → 0 ≤ v → (h.volume_type = VolumeType.Percent → v ≤ 1) →
      (h.add d v).1 = true ∧
      (h.add d v).2.d = h.d ++ [d] ∧
      (h.add d v).2.v = h.v ++ [v] ∧
      (h.add d v).2.is_sorted = false ∧
      (h.add d v).2.dose_type = h.dose_type ∧
      (h.add d v).2.volume_type = h.volume_type) := by
  constructor
  · intro hrej
    rcases hrej with hd | hv | ⟨hp, hv1⟩
    · simp [Dvh.add, hd]
    · unfold Dvh.add
      split_ifs <;> simp_all
    · unfold Dvh.add
      split_ifs <;> simp_all
  · intro hd hv hp
    have h1 : ¬d < 0 := not_lt.mpr hd
    have h2 : ¬v < 0 := not_lt.mpr hv
    have h3 : ¬(h.volume_type = VolumeType.Percent ∧ 1 < v) := by
      rintro ⟨hpt, hgt⟩
      exact absurd (hp hpt) (not_le.mpr hgt)
    simp [Dvh.add, h1, h2, h3]

/-- C5 witness: a rejected negative-dose call and a successful call on the
fresh percent histogram. -/
theorem add_spec_witness :
    ((Dvh.new DoseType.Gy VolumeType.Percent).add (-1) 0
        = (false, Dvh.new DoseType.Gy VolumeType.Percent)) ∧
    (((Dvh.new DoseType.Gy VolumeType.Percent).add 2 (1/2)).1 = true ∧
      ((Dvh.new DoseType.Gy VolumeType.Percent).add 2 (1/2)).2.d
          = (Dvh.new DoseType.Gy VolumeType.Percent).d ++ [2] ∧
      ((Dvh.new DoseType.Gy VolumeType.Percent).add 2 (1/2)).2.v
          = (Dvh.new DoseType.Gy VolumeType.Percent).v ++ [1/2] ∧
      ((Dvh.new DoseType.Gy VolumeType.Percent).add 2 (1/2)).2.is_sorted = false ∧
      ((Dvh.new DoseType.Gy VolumeType.Percent).add 2 (1/2)).2.dose_type
          = (Dvh.new DoseType.Gy VolumeType.Percent).dose_type ∧
      ((Dvh.new DoseType.Gy VolumeType.Percent).add 2 (1/2)).2.volume_type
          = (Dvh.new DoseType.Gy VolumeType.Percent).volume_type) :=
  ⟨(add_spec _ _ _).1 (Or.inl (by norm_num)),
   (add_spec _ _ _).2 (by norm_num) (by norm_num) (fun _ => by norm_num)⟩

/-- C6 counterexample: on the empty input pair, `add_slice` is not a no-op:
called on a freshly created histogram (whose sorted flag is true) it
returns true but clears the flag, so the state differs from before. -/
theorem add_slice_empty_not_noop :
    ((Dvh.new DoseType.Gy VolumeType.Percent).add_slice [] []).2
      ≠ Dvh.new DoseType.Gy VolumeType.Percent := by
  norm_num [Dvh.add_slice, Dvh.new]

/-- C6 (amended): `add_slice` is all-or-nothing: it returns false with no
mutation on a length mismatch or any failing element; on success — the
empty input pair included — it returns true, appends every pair in input
order, and clears the sorted flag (on empty input nothing is appended, but
the flag is still cleared, so the call is not a strict no-op). -/
theorem add_slice_spec (h : Dvh) (ds vs : List ℚ) :
    ((ds.length ≠ vs.length ∨ (∃ x ∈ ds, x < 0) ∨
        (∃ x ∈ vs, x < 0 ∨ (h.volume_type = VolumeType.Percent ∧ 1 < x))) →
      h.add_slice ds vs = (false, h)) ∧
    (ds.length = vs.length → (∀ x ∈ ds, 0 ≤ x) →
      (∀ x ∈ vs, 0 ≤ x ∧ (h.volume_type = VolumeType.Percent → x ≤ 1)) →
      (h.add_slice ds vs).1 = true ∧
      (h.add_slice ds vs).2.d = h.d ++ ds ∧
      (h.add_slice ds vs).2.v = h.v ++ vs ∧
      (h.add_slice ds vs).2.is_sorted = false ∧
      (h.add_slice ds vs).2.dose_type = h.dose_type ∧
      (h.add_slice ds vs).2.volume_type = h.volume_type) := by
  constructor
  · intro hrej
    rcases hrej with hlen | ⟨x, hx, hneg⟩ | ⟨x, hx, hbad⟩
    · simp [Dvh.add_slice, hlen]
    · have hany : ds.any (fun x => decide (x < 0)) = true :=
        List.any_eq_true.mpr ⟨x, hx, by simpa using hneg⟩
      unfold Dvh.add_slice
      split_ifs <;> simp_all
    · have hany : vs.any (fun x =>
          decide (x < 0) || decide (h.volume_type = VolumeType.Percent ∧ 1 < x))
            = true := by
        refine List.any_eq_true.mpr ⟨x, hx, ?_⟩
        rcases hbad with hneg | hpb
        · simp [hneg]
        · simp [hpb]
      unfold Dvh.add_slice
      split_ifs <;> simp_all
  · intro hlen hds hvs
    have h1 : ¬ds.length ≠ vs.length := by simpa using hlen
    have h2 : ¬∃ x ∈ ds, x < 0 := by
      rintro ⟨x, hx, hneg⟩
      exact absurd (hds x hx) (not_le.mpr hneg)
    have h3 : ¬∃ x ∈ vs, x < 0 ∨ (h.volume_type = VolumeType.Percent ∧ 1 < x) := by
      rintro ⟨x, hx, hor⟩
      obtain ⟨hx0, hxp⟩ := hvs x hx
      rcases hor with hneg | ⟨hpt, hgt⟩
      · exact absurd hx0 (not_le.mpr hneg)
      · exact absurd (hxp hpt) (not_le.mpr hgt)
    simp [Dvh.add_slice, h1, h2, h3]

/-- C6 witness: a rejected mismatched-length call and the successful empty
call on the fresh percent histogram. -/
theorem add_slice_spec_witness :
    ((Dvh.new DoseType.Gy VolumeType.Percent).add_slice [1] []
        = (false, Dvh.new DoseType.Gy VolumeType.Percent)) ∧
    (((Dvh.new DoseType.Gy VolumeType.Percent).add_slice [] []).1 = true ∧
      ((Dvh.new DoseType.Gy VolumeType.Percent).add_slice [] []).2.d
          = (Dvh.new DoseType.Gy VolumeType.Percent).d ++ [] ∧
      ((Dvh.new DoseType.Gy VolumeType.Percent).add_slice [] []).2.v
          = (Dvh.new DoseType.Gy VolumeType.Percent).v ++ [] ∧
      ((Dvh.new DoseType.Gy VolumeType.Percent).add_slice [] []).2.is_sorted = false ∧
      ((Dvh.new DoseType.Gy VolumeType.Percent).add_slice [] []).2.dose_type
          = (Dvh.new DoseType.Gy VolumeType.Percent).dose_type ∧
      ((Dvh.new DoseType.Gy VolumeType.Percent).add_slice [] []).2.volume_type
          = (Dvh.new DoseType.Gy VolumeType.Percent).volume_type) :=
  ⟨(add_slice_spec _ _ _).1 (Or.inl (by norm_num)),
   (add_slice_spec _ _ _).2 rfl (by simp) (by simp)⟩

/-- In a non-decreasingly sorted list every element is at most the last
element. -/
theorem sorted_le_last (l : List ℚ) (hs : l.Sorted (· ≤ ·)) (x : ℚ) (hx : x ∈ l) :
    x ≤ l.getD (l.length - 1) 0 := by
  obtain ⟨i, hi, hxi⟩ := List.mem_iff_getElem.mp hx
  have hlast : l.length - 1 < l.length := by omega
  rw [List.getD_eq_getElem l 0 hlast]
  have hle := List.Sorted.rel_get_of_le hs
    (a := ⟨i, hi⟩) (b := ⟨l.length - 1, hlast⟩) (by simp [Fin.le_def]; omega)
  simpa [hxi] using hle

/-- The forward bracket scan of `vx` falls through to the trailing clamp
when every scanned dose is below the query. -/
theorem vxScan_clamp (dose dLast vLast : ℚ) (hd : dLast < dose) :
    ∀ (l : List (ℚ × ℚ)) (x0 y0 : ℚ), (∀ p ∈ l, p.1 < dose) →
      Dvh.vxScan dose dLast vLast x0 y0 l = Except.ok vLast := by
  intro l
  induction l with
  | nil =>
    intro x0 y0 _
    simp [Dvh.vxScan, hd]
  | cons p rest ih =>
    intro x0 y0 hall
    obtain ⟨x1, y1⟩ := p
    have hx1 : x1 < dose := hall (x1, y1) (List.mem_cons_self _ _)
    have hb : ¬(x0 ≤ dose ∧ dose ≤ x1) := by
      rintro ⟨-, hc⟩
      exact absurd hc (not_le.mpr hx1)
    rw [show Dvh.vxScan dose dLast vLast x0 y0 ((x1, y1) :: rest)
        = Dvh.vxScan dose dLast vLast x1 y1 rest by simp [Dvh.vxScan, hb]]
    exact ih x1 y1 fun q hq => hall q (List.mem_cons_of_mem _ hq)

/-- C7: the boundary clamp policy of `vx` and `dx`: a dose at or below the
first sample's dose yields the first sample's volume; a dose beyond the
last sample's dose yields the last sample's volume; a volume at or below
the last sample's volume yields the last sample's dose. -/
theorem boundary_clamp (h : Dvh) (dose volume : ℚ)
    (hlen : h.d.length = h.v.length) (hn : 2 ≤ h.len)
    (hs : h.is_sorted = true) (hsd : h.d.Sorted (· ≤ ·)) :
    (0 ≤ dose → dose ≤ h.d.getD 0 0 → h.vx dose = Except.ok (h.v.getD 0 0)) ∧
    (0 ≤ dose → h.d.getD (h.d.length - 1) 0 < dose →
      h.vx dose = Except.ok (h.v.getD (h.d.length - 1) 0)) ∧
    (0 ≤ volume → volume ≤ h.v.getD (h.v.length - 1) 0 →
      h.dx volume = Except.ok (h.d.getD (h.v.length - 1) 0)) := by
  have hn' : 2 ≤ h.d.length := hn
  have hne : h.d ≠ [] := by
    intro he
    rw [he] at hn'
    simp at hn'
  have hlt : ¬h.d.length < 2 := not_lt.mpr hn
  refine ⟨?_, ?_, ?_⟩
  · intro h0 hc
    simp [Dvh.vx, Dvh.is_empty, Dvh.len, not_lt.mpr h0, hs, List.isEmpty_iff, hne, hlt]
    simp only [← List.getD_eq_getElem?_getD]
    intro hcon
    exact absurd hcon (not_lt.mpr hc)
  · intro h0 hc
    have h00 : h.d.getD 0 0 ∈ h.d := by
      have h0lt : 0 < h.d.length := by omega
      rw [List.getD_eq_getElem h.d 0 h0lt]
      exact List.getElem_mem h0lt
    have hfirst_le : h.d.getD 0 0 ≤ h.d.getD (h.d.length - 1) 0 :=
      sorted_le_last h.d hsd _ h00
    have hnc : ¬dose ≤ h.d.getD 0 0 := not_le.mpr (lt_of_le_of_lt hfirst_le hc)
    simp [Dvh.vx, Dvh.is_empty, Dvh.len, not_lt.mpr h0, hs, List.isEmpty_iff, hne, hlt]
    simp only [← List.getD_eq_getElem?_getD]
    rw [if_neg hnc]
    refine vxScan_clamp dose _ _ hc (h.d.zip h.v) _ _ ?_
    rintro ⟨a, b⟩ hp
    have ha : a ∈ h.d := (List.of_mem_zip hp).1
    exact lt_of_le_of_lt (sorted_le_last h.d hsd a ha) hc
  · intro h0 hc
    simp [Dvh.dx, Dvh.is_empty, Dvh.len, not_lt.mpr h0, hs, List.isEmpty_iff, hne, hlt]
    simp only [← List.getD_eq_getElem?_getD]
    intro hcon
    exact absurd hcon (not_lt.mpr hc)

/-- C7 witness: the three clamps on a concrete sorted two-point histogram. -/
theorem boundary_clamp_witness :
    ((⟨DoseType.Gy, VolumeType.Percent, [0, 10], [1, 8/10], true⟩ : Dvh).vx 0
        = Except.ok 1) ∧
    ((⟨DoseType.Gy, VolumeType.Percent, [0, 10], [1, 8/10], true⟩ : Dvh).vx 20
        = Except.ok (8/10)) ∧
    ((⟨DoseType.Gy, VolumeType.Percent, [0, 10], [1, 8/10], true⟩ : Dvh).dx (1/2)
        = Except.ok 10) :=
  ⟨(boundary_clamp (⟨DoseType.Gy, VolumeType.Percent, [0, 10], [1, 8/10], true⟩ : Dvh)
      0 (1/2) rfl (by norm_num [Dvh.len]) rfl (by norm_num [List.sorted_cons])).1
      le_rfl (by norm_num),
   (boundary_clamp (⟨DoseType.Gy, VolumeType.Percent, [0, 10], [1, 8/10], true⟩ : Dvh)
      20 (1/2) rfl (by norm_num [Dvh.len]) rfl (by norm_num [List.sorted_cons])).2.1
      (by norm_num) (by norm_num),
   (boundary_clamp (⟨DoseType.Gy, VolumeType.Percent, [0, 10], [1, 8/10], true⟩ : Dvh)
      0 (1/2) rfl (by norm_num [Dvh.len]) rfl (by norm_num [List.sorted_cons])).2.2
      (by norm_num) (by norm_num)⟩

/-- C8: the data invariants (aligned lengths, non-negative values, percent
bound) hold for a new histogram and are preserved by `add`, `add_slice`,
`sort`, and the state-preserving `dx`/`vx` calls. -/
theorem invariants_maintained (dt : DoseType) (vt : VolumeType) (h : Dvh)
    (d v x : ℚ) (ds vs : List ℚ) (hInv : h.Inv) :
    (Dvh.new dt vt).Inv ∧
    (h.add d v).2.Inv ∧
    (h.add_slice ds vs).2.Inv ∧
    h.sort.Inv ∧
    (h.dxCall x).2.Inv ∧
    (h.vxCall x).2.Inv := by
  obtain ⟨hlen, hdpos, hvpos, hperc⟩ := hInv
  refine ⟨⟨rfl, by simp [Dvh.new], by simp [Dvh.new], by simp [Dvh.new]⟩,
    ?_, ?_, ?_, ⟨hlen, hdpos, hvpos, hperc⟩, ⟨hlen, hdpos, hvpos, hperc⟩⟩
  · unfold Dvh.add
    split_ifs with h1 h2 h3
    · exact ⟨hlen, hdpos, hvpos, hperc⟩
    · exact ⟨hlen, hdpos, hvpos, hperc⟩
    · exact ⟨hlen, hdpos, hvpos, hperc⟩
    · refine ⟨by simp [hlen], ?_, ?_, ?_⟩
      · intro y hy
        rcases List.mem_append.mp hy with hy | hy
        · exact hdpos y hy
        · rw [List.mem_singleton.mp hy]
          exact not_lt.mp h1
      · intro y hy
        rcases List.mem_append.mp hy with hy | hy
        · exact hvpos y hy
        · rw [List.mem_singleton.mp hy]
          exact not_lt.mp h2
      · intro hpt y hy
        rcases List.mem_append.mp hy with hy | hy
        · exact hperc hpt y hy
        · rw [List.mem_singleton.mp hy]
          refine ⟨not_lt.mp h2, ?_⟩
          by_contra hgt
          exact h3 ⟨hpt, not_le.mp hgt⟩
  · unfold Dvh.add_slice
    split_ifs with h1 h2 h3
    · exact ⟨hlen, hdpos, hvpos, hperc⟩
    · exact ⟨hlen, hdpos, hvpos, hperc⟩
    · exact ⟨hlen, hdpos, hvpos, hperc⟩
    · have hds : ∀ y ∈ ds, 0 ≤ y := by
        intro y hy
        by_contra hneg
        exact h2 (List.any_eq_true.mpr ⟨y, hy, by simpa using not_le.mp hneg⟩)
      have hvsall : ∀ y ∈ vs, 0 ≤ y ∧ (h.volume_type = VolumeType.Percent → y ≤ 1) := by
        intro y hy
        constructor
        · by_contra hneg
          exact h3 (List.any_eq_true.mpr ⟨y, hy, by simp [not_le.mp hneg]⟩)
        · intro hpt
          by_contra hgt
          exact h3 (List.any_eq_true.mpr ⟨y, hy, by simp [hpt, not_le.mp hgt]⟩)
      have hnn : ¬ds.length ≠ vs.length := h1
      refine ⟨by simp [hlen]; omega, ?_, ?_, ?_⟩
      · intro y hy
        rcases List.mem_append.mp hy with hy | hy
        · exact hdpos y hy
        · exact hds y hy
      · intro y hy
        rcases List.mem_append.mp hy with hy | hy
        · exact hvpos y hy
        · exact (hvsall y hy).1
      · intro hpt y hy
        rcases List.mem_append.mp hy with hy | hy
        · exact hperc hpt y hy
        · exact ⟨(hvsall y hy).1, (hvsall y hy).2 hpt⟩
  · by_cases hsor : h.is_sorted = true
    · have heq : h.sort = h := by simp [Dvh.sort, hsor]
      rw [heq]
      exact ⟨hlen, hdpos, hvpos, hperc⟩
    · have hs' : h.is_sorted = false := by simpa using hsor
      have hidx_mem : ∀ i ∈ h.sortIndices, i < h.d.length := by
        intro i hi
        have hmem := (sortIndices_perm h).mem_iff.mp hi
        simpa [List.mem_range] using hmem
      have hd : h.sort.d = h.sortIndices.map (fun i => h.d.getD i 0) := by
        simp [Dvh.sort, hs']
      have hv : h.sort.v = h.sortIndices.map (fun i => h.v.getD i 0) := by
        simp [Dvh.sort, hs']
      have hvt : h.sort.volume_type = h.volume_type := by
        simp [Dvh.sort, hs']
      have hmemd : ∀ y ∈ h.sort.d, y ∈ h.d := by
        intro y hy
        rw [hd] at hy
        obtain ⟨i, hi, rfl⟩ := List.mem_map.mp hy
        have hilt := hidx_mem i hi
        rw [List.getD_eq_getElem h.d 0 hilt]
        exact List.getElem_mem hilt
      have hmemv : ∀ y ∈ h.sort.v, y ∈ h.v := by
        intro y hy
        rw [hv] at hy
        obtain ⟨i, hi, rfl⟩ := List.mem_map.mp hy
        have hilt : i < h.v.length := hlen ▸ hidx_mem i hi
        rw [List.getD_eq_getElem h.v 0 hilt]
        exact List.getElem_mem hilt
      refine ⟨by rw [hd, hv]; simp, ?_, ?_, ?_⟩
      · intro y hy
        exact hdpos y (hmemd y hy)
      · intro y hy
        exact hvpos y (hmemv y hy)
      · intro hpt y hy
        exact hperc (hvt ▸ hpt) y (hmemv y hy)

/-- C8 witness: a concrete invariant-satisfying histogram and inputs. -/
theorem invariants_maintained_witness :
    (Dvh.new DoseType.Gy VolumeType.Percent).Inv ∧
    ((⟨DoseType.Gy, VolumeType.Percent, [3], [1], false⟩ : Dvh).add 1 (1/2)).2.Inv ∧
    ((⟨DoseType.Gy, VolumeType.Percent, [3], [1], false⟩ : Dvh).add_slice [4] [0]).2.Inv ∧
    (⟨DoseType.Gy, VolumeType.Percent, [3], [1], false⟩ : Dvh).sort.Inv ∧
    ((⟨DoseType.Gy, VolumeType.Percent, [3], [1], false⟩ : Dvh).dxCall 1).2.Inv ∧
    ((⟨DoseType.Gy, VolumeType.Percent, [3], [1], false⟩ : Dvh).vxCall 1).2.Inv :=
  invariants_maintained DoseType.Gy VolumeType.Percent
    (⟨DoseType.Gy, VolumeType.Percent, [3], [1], false⟩ : Dvh) 1 (1/2) 1 [4] [0]
    ⟨rfl, by norm_num, by norm_num, by norm_num⟩

/-- C10: `dx` and `vx` take the receiver by shared reference and assign no
field: after a call (whatever its result) the doses, the volumes, both unit
tags, and the sorted flag are exactly as before. -/
theorem dx_vx_no_mutation (h : Dvh) (volume dose : ℚ) :
    (h.dxCall volume).2.d = h.d ∧ (h.dxCall volume).2.v = h.v ∧
    (h.dxCall volume).2.dose_type = h.dose_type ∧
    (h.dxCall volume).2.volume_type = h.volume_type ∧
    (h.dxCall volume).2.is_sorted = h.is_sorted ∧
    (h.vxCall dose).2.d = h.d ∧ (h.vxCall dose).2.v = h.v ∧
    (h.vxCall dose).2.dose_type = h.dose_type ∧
    (h.vxCall dose).2.volume_type = h.volume_type ∧
    (h.vxCall dose).2.is_sorted = h.is_sorted :=
  ⟨rfl, rfl, rfl, rfl, rfl, rfl, rfl, rfl, rfl, rfl⟩
